import Mathlib

/-!
Verification of the FLAAA XACML 3.0 Policy Decision Point core against its
natural-language specification.  The JavaScript source is shallowly embedded:
pure functions become Lean functions, module-level mutable state (the
AttributeDesignator lookup cache) becomes explicit state passing, fallible
code returns `Except`, and external modules that are not part of the sources
under verification (the request-context factory, the PDP evaluator proper,
the `moment` date library) are modelled as explicit oracle parameters.
-/

deriving instance DecidableEq for Except

namespace FLAAA

/-- JS `s.startsWith(p)`, computed on the character lists. -/
def strStartsWith (s p : String) : Bool :=
  p.toList.isPrefixOf s.toList

/-- Substring search on character lists (JS `includes`). -/
def containsSub (hay needle : List Char) : Bool :=
  match hay with
  | [] => needle.isEmpty
  | _ :: t => needle.isPrefixOf hay || containsSub t needle

/-- JS `haystack.includes(needle)` on strings. -/
def strIncludes (haystack needle : String) : Bool :=
  containsSub haystack.toList needle.toList

/-! ## Status model (ctx/status, ctx/statusDetail, ctx/missingAttributeDetail)

The status modules themselves are not among the verified sources; their
constants and record shapes are modelled from the spec, which lists the
standard status codes `ok`, `missing-attribute`, `syntax-error`,
`processing-error` and says a `missing-attribute` detail carries
`(category, attributeId, dataType, issuer?)` descriptors. -/

/-- Modelled from the spec: standard XACML status code for a missing
attribute (the `ctx/status` module is not among the verified sources). -/
def STATUS_MISSING_ATTRIBUTE : String :=
  "urn:oasis:names:tc:xacml:1.0:status:missing-attribute"

/-- Modelled from the spec: standard XACML status code for a syntax error. -/
def STATUS_SYNTAX_ERROR : String :=
  "urn:oasis:names:tc:xacml:1.0:status:syntax-error"

/-- Modelled from the spec: one missing-attribute descriptor, as built by
`MissingAttributeDetail.initWithIssuerAndAttributes(id, type, category,
issuer, null, v3)` in the designator source. -/
structure MissingAttributeDetail where
  id : String
  type : String
  category : String
  issuer : Option String
deriving DecidableEq

/-- Modelled from the spec: a Status `(code, message, detail)`; the detail,
when present, is the list of missing-attribute descriptors. -/
structure Status where
  code : List String
  message : String
  detail : Option (List MissingAttributeDetail)
deriving DecidableEq

/-! ## parseRes and the internal decision codes (Luas module)

The decision constants live in `ctx/result`, which is not among the verified
sources; the spec's decision model (`Permit | Deny | NotApplicable |
Indeterminate{D,P,DP}`) fixes seven internal codes, modelled here as the
seven distinct numbers the switch in `parseRes` distinguishes. -/

/-- Modelled from the spec: internal code for the `Permit` decision. -/
def DECISION_PERMIT : Nat := 0

/-- Modelled from the spec: internal code for the `Deny` decision. -/
def DECISION_DENY : Nat := 1

/-- Modelled from the spec: internal code for the generic `Indeterminate`
decision. -/
def DECISION_INDETERMINATE : Nat := 2

/-- Modelled from the spec: internal code for the `NotApplicable` decision. -/
def DECISION_NOT_APPLICABLE : Nat := 3

/-- Modelled from the spec: internal code for the `Indeterminate{D}`
flavour. -/
def DECISION_INDETERMINATE_DENY : Nat := 4

/-- Modelled from the spec: internal code for the `Indeterminate{P}`
flavour. -/
def DECISION_INDETERMINATE_PERMIT : Nat := 5

/-- Modelled from the spec: internal code for the `Indeterminate{DP}`
flavour. -/
def DECISION_INDETERMINATE_DENY_OR_PERMIT : Nat := 6

/-- The `parseRes` helper of the Luas module: a switch over the internal
decision code producing the external decision string, `null` (here `none`)
on an unrecognised code. -/
def parseRes (response : Nat) : Option String :=
  if response = DECISION_PERMIT then some "Permit"
  else if response = DECISION_DENY then some "Deny"
  else if response = DECISION_INDETERMINATE then some "Indeterminate"
  else if response = DECISION_NOT_APPLICABLE then some "NotApplicable"
  else if response = DECISION_INDETERMINATE_DENY then some "Indeterminate"
  else if response = DECISION_INDETERMINATE_PERMIT then some "Indeterminate"
  else if response = DECISION_INDETERMINATE_DENY_OR_PERMIT then some "Indeterminate"
  else none

/-! ## DateTimeAttribute (pdp/xacml/attr/dateTimeAttribute.js)

JS numbers holding epoch milliseconds and nanosecond counts are embedded as
`Int`; the JS `%` operator is truncating remainder, i.e. `Int.tmod`.  The
`moment` library is an oracle (`MomentOracle`): the embedding keeps only its
strict-ISO validity verdict, epoch milliseconds and UTC offset. -/

def NANOS_PER_MILLI : Int := 1000000

def MILLIS_PER_SECOND : Int := 1000

def NANOS_PER_SECOND : Int := NANOS_PER_MILLI * MILLIS_PER_SECOND

/-- `DateTimeAttribute.prototype.combineNanos`: fold the date's sub-second
millisecond remainder into the nanosecond count.  JS `%` is `Int.tmod`. -/
def combineNanos (millis nanoseconds : Int) : Int :=
  let milliCarry := millis.tmod MILLIS_PER_SECOND
  if milliCarry = 0 ∧ 0 < nanoseconds ∧ nanoseconds < NANOS_PER_SECOND then
    nanoseconds
  else
    let nanoTemp := nanoseconds + milliCarry * NANOS_PER_MILLI
    nanoTemp.tmod NANOS_PER_SECOND

structure DateTimeAttribute where
  value : Int
  nanoseconds : Int
  timeZone : Int
  defaultedTimeZone : Int
deriving DecidableEq

/-- `DateTimeAttribute.prototype.init`: store the date and the nanoseconds
folded through `combineNanos`. -/
def DateTimeAttribute.init (date nanoseconds timeZone defaultedTimeZone : Int) :
    DateTimeAttribute :=
  { value := date
    nanoseconds := combineNanos date nanoseconds
    timeZone := timeZone
    defaultedTimeZone := defaultedTimeZone }

/-- `DateTimeAttribute.prototype.equals`: the source body is
`throw new Error()` behind a placeholder comment, so every call fails. -/
def DateTimeAttribute.equals (_a _dateOther : DateTimeAttribute) :
    Except String Bool :=
  .error ""

/-! ### The dateTime syntax check

`getInstance` validates against the regex
`^\d{4}-\d{2}-\d{2}T\d{2}:\d{2}:\d{2}(?:\.\d+)?(?:Z|[+\-]\d{2}:\d{2})$`,
compiled here into a shape check on the 19 leading characters, an optional
fraction, and the timezone tail. -/

/-- The fixed-shape prefix of the dateTime regex; `D` marks a digit
position, every other character is literal. -/
def dateTimeShape : List Char :=
  ['D', 'D', 'D', 'D', '-', 'D', 'D', '-', 'D', 'D', 'T',
   'D', 'D', ':', 'D', 'D', ':', 'D', 'D']

/-- Character-by-character shape check; the lists must have equal length. -/
def checkShape : List Char → List Char → Bool
  | [], [] => true
  | p :: ps, c :: cs => (if p = 'D' then c.isDigit else c = p) && checkShape ps cs
  | _, _ => false

/-- The timezone alternative of the regex: `Z` or `[+\-]\d{2}:\d{2}`,
anchored at the end (the argument is the whole remaining tail). -/
def matchTZ : List Char → Bool
  | [c] => c = 'Z'
  | [s, a, b, c, d, e] =>
      (s = '+' || s = '-') && a.isDigit && b.isDigit &&
      c = ':' && d.isDigit && e.isDigit
  | _ => false

/-- The optional fraction `(?:\.\d+)?` followed by the timezone: the
fraction, when present, is the maximal digit run after the dot. -/
def fracTZ : List Char → Bool
  | [] => false
  | c :: r =>
      if c = '.' then
        !(r.takeWhile Char.isDigit).isEmpty &&
          matchTZ (r.dropWhile Char.isDigit)
      else matchTZ (c :: r)

/-- The dateTime regex of `getInstance`, as a decidable match. -/
def dtRegexMatch (s : String) : Bool :=
  checkShape dateTimeShape (s.toList.take 19) && fracTZ (s.toList.drop 19)

/-- The `value.match(/>([^<]+)</)` extraction used when the argument is
a serialized `<AttributeValue ...>` fragment: the first `>` followed by a
nonempty run of non-`<` characters and a closing `<` yields that run. -/
def extractInner : List Char → Option (List Char)
  | [] => none
  | c :: rest =>
      if c = '>' then
        let body := rest.takeWhile (fun x => x != '<')
        if !body.isEmpty && !(rest.dropWhile (fun x => x != '<')).isEmpty then
          some body
        else extractInner rest
      else extractInner rest

/-- The text `getInstance` actually parses: the inner text when the string
is an `<AttributeValue` fragment, the string itself otherwise. -/
def parsedText (v : String) : Except String String :=
  if strStartsWith v "<AttributeValue" then
    match extractInner v.toList with
    | some body => .ok (String.mk body)
    | none => .error "Invalid XML format for dateTime value"
  else .ok v

def digitsToNat (cs : List Char) : Nat :=
  cs.foldl (fun acc c => acc * 10 + (c.toNat - '0'.toNat)) 0

/-- The nanosecond extraction of `getInstance`: the digits between the dot
and the timezone, zero-padded or truncated to nine digits.  On a
regex-validated value the source's `indexOf` of the matched timezone is its
suffix position, so the fractional substring is the maximal digit run after
the first dot. -/
def extractNanos (cs : List Char) : Nat :=
  match cs.dropWhile (fun x => x != '.') with
  | [] => 0
  | _ :: rest =>
      let frac := rest.takeWhile Char.isDigit
      digitsToNat ((frac ++ List.replicate 9 '0').take 9)

/-- The behaviour of the `moment` library retained by the embedding:
strict-ISO validity, epoch milliseconds of `toDate()`, and `utcOffset()`. -/
structure MomentOracle where
  isValid : String → Bool
  millisOf : String → Int
  utcOffsetOf : String → Int

/-- `DateTimeAttribute.prototype.getInstance` on a string argument:
optional XML unwrapping, the timezone-requiring regex, moment's strict ISO
validation, then construction through `init`. -/
def DateTimeAttribute.getInstance (m : MomentOracle) (v : String) :
    Except String DateTimeAttribute :=
  match parsedText v with
  | .error e => .error e
  | .ok t =>
      if dtRegexMatch t then
        if m.isValid t then
          .ok (DateTimeAttribute.init (m.millisOf t) (extractNanos t.toList : Int)
                (m.utcOffsetOf t) (m.utcOffsetOf t))
        else .error ("Malformed dateTime value: " ++ t)
      else .error ("Malformed dateTime value: " ++ t)

/-! ### The spec-side timezone predicate -/

/-- Spec-side: the text ends with the designator `Z`. -/
def endsWithZ (cs : List Char) : Bool :=
  match cs.reverse with
  | c :: _ => c = 'Z'
  | [] => false

/-- Spec-side: the text ends with an offset designator `±HH:MM`. -/
def endsWithOffset (cs : List Char) : Bool :=
  match cs.reverse with
  | e :: d :: c :: b :: a :: s :: _ =>
      (s = '+' || s = '-') && a.isDigit && b.isDigit &&
      c = ':' && d.isDigit && e.isDigit
  | _ => false

/-- The spec's words: the value carries a timezone designator, `Z` or
`±HH:MM`. -/
def hasTimezoneDesignator (s : String) : Bool :=
  endsWithZ s.toList || endsWithOffset s.toList

inductive ParsedValueResult where
  | parsed (a : DateTimeAttribute)
  | indet (s : Status)
deriving DecidableEq

/-- Modelled from the spec: the enclosing expression evaluation (the
AttributeValue and expression evaluators are not among the verified
sources) catches the parse failure thrown by `getInstance` and turns it
into `Indeterminate` with a syntax-error status carrying the message. -/
def evalDateTimeValue (m : MomentOracle) (v : String) : ParsedValueResult :=
  match DateTimeAttribute.getInstance m v with
  | .ok a => .parsed a
  | .error e => .indet ⟨[STATUS_SYNTAX_ERROR], e, none⟩

/-! ## AttributeDesignator and its module-level cache

The designator module keeps six module-level variables `cacheType, cacheId,
cacheIssuer, cacheCategory, cacheResult, cacheAttributes`; they are embedded
as one explicit `Option CacheEntry` threaded through every evaluation.  The
evaluation context object (`evaluationCtx`) is not among the verified
sources; what the designator reads of it is `context.attributesSet` (used as
an identity key, embedded as a `Nat` object identity) and
`context.getAttribute`, modelled as a pure lookup function of the store
identity and the descriptor tuple, per the spec's §4.2. -/

/-- An attribute lookup outcome: an indeterminate status or a bag of
values (the bag's elements are kept opaque as strings). -/
inductive AttrResult where
  | indet (s : Status)
  | bag (values : List String)
deriving DecidableEq

structure AttributeDesignator where
  type : String
  id : String
  mustBePresent : Bool
  issuer : Option String
  category : String
deriving DecidableEq

/-- The six module-level cache variables of the designator source, as one
optional entry (`none` is the initial, unset state). -/
structure CacheEntry where
  type : String
  id : String
  issuer : Option String
  category : String
  result : AttrResult
  attrs : Nat
deriving DecidableEq

/-- Modelled from the spec: `get_attribute` of the Context (the
`evaluationCtx` module is not among the verified sources) is a pure lookup
keyed by the request attribute store and the `(category, id, dataType,
issuer?)` tuple. -/
structure World where
  lookup : Nat → String → String → Option String → String → AttrResult

/-- The per-evaluation context as the designator sees it: the identity of
the request's `attributesSet`. -/
structure EvalContext where
  attributesSet : Nat
deriving DecidableEq

/-- The status built on the missing-attribute path of
`AttributeDesignator.prototype.evaluate`. -/
def missingAttributeStatus (d : AttributeDesignator) : Status :=
  { code := [STATUS_MISSING_ATTRIBUTE]
    message := "Couldn't find AttributeDesignator attribute"
    detail := some [⟨d.id, d.type, d.category, d.issuer⟩] }

/-- The lookup step of `AttributeDesignator.prototype.evaluate`: the cached
result when all six cache variables match, otherwise a fresh
`context.getAttribute` call. -/
def designatorLookup (w : World) (d : AttributeDesignator) (ctx : EvalContext)
    (cache : Option CacheEntry) : AttrResult :=
  match cache with
  | some e =>
      if e.type = d.type ∧ e.id = d.id ∧ e.issuer = d.issuer ∧
          e.category = d.category ∧ e.attrs = ctx.attributesSet then
        e.result
      else w.lookup ctx.attributesSet d.type d.id d.issuer d.category
  | none => w.lookup ctx.attributesSet d.type d.id d.issuer d.category

/-- The cache state after the lookup step: unchanged on a hit, overwritten
with the fresh result on a miss. -/
def designatorCacheAfter (w : World) (d : AttributeDesignator) (ctx : EvalContext)
    (cache : Option CacheEntry) : Option CacheEntry :=
  match cache with
  | some e =>
      if e.type = d.type ∧ e.id = d.id ∧ e.issuer = d.issuer ∧
          e.category = d.category ∧ e.attrs = ctx.attributesSet then
        cache
      else
        some ⟨d.type, d.id, d.issuer, d.category,
          w.lookup ctx.attributesSet d.type d.id d.issuer d.category,
          ctx.attributesSet⟩
  | none =>
      some ⟨d.type, d.id, d.issuer, d.category,
        w.lookup ctx.attributesSet d.type d.id d.issuer d.category,
        ctx.attributesSet⟩

/-- The value component of `AttributeDesignator.prototype.evaluate`: pass
an indeterminate lookup through, and turn an empty bag into a
missing-attribute indeterminate when `mustBePresent` is set. -/
def designatorResultOf (w : World) (d : AttributeDesignator)
    (ctx : EvalContext) (cache : Option CacheEntry) : AttrResult :=
  match designatorLookup w d ctx cache with
  | .indet s => .indet s
  | .bag vs =>
      if vs = [] then
        if d.mustBePresent = true then .indet (missingAttributeStatus d)
        else .bag vs
      else .bag vs

/-- `AttributeDesignator.prototype.evaluate`: consult or fill the module
cache, then post-process the looked-up bag.  Returns the evaluation result
together with the module cache state left behind. -/
def AttributeDesignator.evaluate (w : World) (d : AttributeDesignator)
    (ctx : EvalContext) (cache : Option CacheEntry) :
    AttrResult × Option CacheEntry :=
  (designatorResultOf w d ctx cache, designatorCacheAfter w d ctx cache)

/-- A module cache state is consistent with the world when any entry it
holds records exactly what a fresh lookup of its key would return.  The
initial (unset) state is consistent, and every evaluation leaves a
consistent state (`designatorCache_consistent`). -/
def CacheConsistent (w : World) (cache : Option CacheEntry) : Prop :=
  ∀ e, cache = some e →
    e.result = w.lookup e.attrs e.type e.id e.issuer e.category

/-! ## NotFunction (cond/notFunction.js)

Expressions are embedded shallowly as functions from the evaluation context
to an evaluation result; a boolean evaluation result carries its `value`
field, mirroring `EvaluationResult.getInstance`. -/

inductive EvaluationResult where
  | value (v : Bool)
  | indet (s : Status)
deriving DecidableEq

/-- `NotFunction.prototype.evaluateApply`: evaluate the first argument
expression (`value[0]`; the function's arity is one), pass an indeterminate
result through unchanged, negate a boolean one. -/
def NotFunction.evaluateApply (arg : EvalContext → EvaluationResult)
    (ctx : EvalContext) : EvaluationResult :=
  match arg ctx with
  | .indet s => .indet s
  | .value v => .value (!v)

/-! ## Attributes loader (pdp/xacml/xacml3/attributes.js)

The child-node loop of `Attributes.prototype.getInstance`, given the parsed
root's category and id.  A `<Content>` child contributes its `firstChild`
(possibly absent for an empty element); an `<Attribute>` child contributes a
parsed attribute (kept opaque, the `ctx/attribute` module is not among the
verified sources); other children are skipped. -/

inductive XmlChild where
  | contentNode (firstChild : Option String)
  | attributeNode (attr : String)
  | otherNode (name : String)
deriving DecidableEq

structure Attributes where
  category : String
  content : Option String
  attributes : List String
  id : Option String
deriving DecidableEq

/-- The accumulation loop over the root's child nodes: collects attributes,
records the first non-empty `Content` child, and fails on a second
`Content` when one is already recorded. -/
def attributesLoop : List XmlChild → Option String → List String →
    Except String (Option String × List String)
  | [], content, attrs => .ok (content, attrs)
  | .contentNode fc :: rest, content, attrs =>
      if content.isSome then .error "Too many content elements are defined."
      else attributesLoop rest fc attrs
  | .attributeNode a :: rest, content, attrs =>
      attributesLoop rest content (attrs ++ [a])
  | .otherNode _ :: rest, content, attrs =>
      attributesLoop rest content attrs

/-- `Attributes.prototype.getInstance` after the root-name check: run the
child loop, then refuse any collected `Content` with the source's literal
`"need an implementation"` error before constructing the instance. -/
def Attributes.getInstance (category : String) (id : Option String)
    (nodes : List XmlChild) : Except String Attributes :=
  match attributesLoop nodes none [] with
  | .error e => .error e
  | .ok (content, attrs) =>
      if content.isSome then .error "need an implementation"
      else .ok ⟨category, content, attrs, id⟩

def Attributes.getContent (a : Attributes) : Option String :=
  a.content

/-! ## The Luas PDP boundary (luas.js)

`evaluateCallBack` guards only the request-context construction with
try/catch; the `pdp.evaluate` call and the response post-processing run
unguarded, so an exception there leaves `evaluateCallBack` (embedded as its
`Except.error` case).  `evaluates` wraps the whole call in try/catch whose
handler only logs, so on such an exception it returns `undefined` (embedded
as `none`).  The request-context factory and the PDP evaluator proper are
not among the verified sources; they enter as oracle parameters: the
already-taken outcome of `getRequestCtxWithRequest` (request contexts kept
opaque as `Nat`) and the outcome of `pdp.evaluate(...).getResults()[0]`.
`JSON.stringify` of structured data is modelled by carrying the structure;
JS truthiness of possibly-absent string fields is modelled by `Option`. -/

structure JsError where
  message : String
deriving DecidableEq

/-- What `evaluateCallBack` reads of the first result of `pdp.evaluate`:
the decision code, the obligation ids, the serialized included attributes
and the optional status. -/
structure ResponseCtx where
  decision : Nat
  obligations : List String
  attributes : String
  status : Option Status
deriving DecidableEq

/-- One `AttributeAssignment` as re-read from the policy files by
`getFullObligationsFromPolicy`. -/
structure AssignmentEntry where
  attributeId : Option String
  value : Option String
  designatorAttrId : Option String
deriving DecidableEq

structure FullObligation where
  obligationId : String
  fulfillOn : String
  assignments : List AssignmentEntry
deriving DecidableEq

/-- The external response object `evaluateCallBack` returns.  Its fields
are exactly the five of the source literal: there is no status-code
field. -/
structure LuasResponse where
  obligations : List FullObligation
  attributes : String
  decision : Option String
  reason : Option (List String)
  message : Option String
deriving DecidableEq

/-- The reason extracted from one assignment on the Deny path: an
assignment whose lower-cased `AttributeId` mentions "reason" contributes
its literal value, or failing that its designator's attribute id. -/
def reasonOf (a : AssignmentEntry) : Option String :=
  match a.attributeId with
  | some aid =>
      if strIncludes aid.toLower "reason" then
        match a.value with
        | some v => some v
        | none => a.designatorAttrId
      else none
  | none => none

def collectReasons (obls : List FullObligation) : List String :=
  (obls.map (fun o => o.assignments.filterMap reasonOf)).flatten

/-- `Luas.prototype.evaluateCallBack`, parameterized by the outcome of the
request-context construction (`parse`) and by the behaviours of the policy
re-reader and the PDP core.  Only the parse step is guarded: its exception
becomes the literal fallback response; later exceptions propagate. -/
def evaluateCallBack (getFullObls : List String → List FullObligation)
    (pdpEval : Nat → Except JsError ResponseCtx)
    (parse : Except JsError Nat) : Except JsError LuasResponse :=
  match parse with
  | .error e =>
      .ok { obligations := []
            attributes := "[]"
            decision := some "Indeterminate"
            reason := none
            message := some e.message }
  | .ok request =>
      match pdpEval request with
      | .error e => .error e
      | .ok responseCtx =>
          let fullObligations := getFullObls responseCtx.obligations
          let decisionStr := parseRes responseCtx.decision
          let reasons :=
            if decisionStr = some "Deny" then collectReasons fullObligations
            else []
          .ok { obligations := fullObligations
                attributes := responseCtx.attributes
                decision := decisionStr
                reason := if reasons.length > 0 then some reasons else none
                message := responseCtx.status.map Status.message }

/-- `Luas.prototype.evaluates`: try/catch around `evaluateCallBack` whose
handler only logs, so a propagated exception yields `undefined`. -/
def evaluates (getFullObls : List String → List FullObligation)
    (pdpEval : Nat → Except JsError ResponseCtx)
    (parse : Except JsError Nat) : Option LuasResponse :=
  match evaluateCallBack getFullObls pdpEval parse with
  | .ok r => some r
  | .error _ => none

/-- All the textual content of a response, for checking what status
information the boundary surfaces. -/
def responseStrings (r : LuasResponse) : List String :=
  [r.attributes, r.decision.getD "", r.message.getD ""] ++
    (r.reason.getD []) ++ r.obligations.map FullObligation.obligationId

/-- Whether any textual field of the response mentions the given token. -/
def responseMentions (r : LuasResponse) (token : String) : Bool :=
  (responseStrings r).any (fun s => strIncludes s token)

theorem matchTZ_ends (p r : List Char) (h : matchTZ r = true) :
    endsWithZ (p ++ r) = true ∨ endsWithOffset (p ++ r) = true := by
  match r, h with
  | [c], h =>
      left
      have hc : c = 'Z' := by simpa [matchTZ] using h
      subst hc
      simp [endsWithZ, List.reverse_append]
  | [s, a, b, c, d, e], h =>
      right
      simp only [matchTZ] at h
      simp only [endsWithOffset, List.reverse_append, List.reverse_cons,
        List.reverse_nil, List.nil_append, List.cons_append, List.append_assoc]
      simpa using h
  | [], h => simp [matchTZ] at h
  | [c1, c2], h => simp [matchTZ] at h
  | [c1, c2, c3], h => simp [matchTZ] at h
  | [c1, c2, c3, c4], h => simp [matchTZ] at h
  | [c1, c2, c3, c4, c5], h => simp [matchTZ] at h
  | c1 :: c2 :: c3 :: c4 :: c5 :: c6 :: c7 :: rest, h => simp [matchTZ] at h

theorem dtRegexMatch_timezone (t : String) (h : dtRegexMatch t = true) :
    hasTimezoneDesignator t = true := by
  unfold dtRegexMatch at h
  rw [Bool.and_eq_true] at h
  obtain ⟨-, hf⟩ := h
  unfold hasTimezoneDesignator
  rw [Bool.or_eq_true]
  have hsplit : t.toList = t.toList.take 19 ++ t.toList.drop 19 :=
    (List.take_append_drop 19 t.toList).symm
  rcases hd : t.toList.drop 19 with _ | ⟨c, r⟩
  · rw [hd] at hf; simp [fracTZ] at hf
  · rw [hd] at hf hsplit
    simp only [fracTZ] at hf
    by_cases hc : c = '.'
    · rw [if_pos hc] at hf
      rw [Bool.and_eq_true] at hf
      obtain ⟨-, hm⟩ := hf
      have hr : ('.' : Char) :: r
          = ('.' :: r.takeWhile Char.isDigit) ++ r.dropWhile Char.isDigit := by
        rw [List.cons_append, List.takeWhile_append_dropWhile]
      have ht : t.toList
          = (t.toList.take 19 ++ '.' :: r.takeWhile Char.isDigit)
              ++ r.dropWhile Char.isDigit := by
        conv_lhs => rw [hsplit]
        rw [hc, hr, List.append_assoc]
      rw [ht]
      exact matchTZ_ends _ _ hm
    · rw [if_neg hc] at hf
      rw [hsplit]
      exact matchTZ_ends _ _ hf

end FLAAA

namespace FLAAA

/-- C7: every internal decision code, including the three Indeterminate
flavours, is rendered by `parseRes` as one of the four literal decision
strings, each Indeterminate flavour as the single string "Indeterminate";
and any string `parseRes` ever produces is one of those four literals. -/
theorem parseRes_decision_strings :
    (parseRes DECISION_PERMIT = some "Permit" ∧
     parseRes DECISION_DENY = some "Deny" ∧
     parseRes DECISION_NOT_APPLICABLE = some "NotApplicable" ∧
     parseRes DECISION_INDETERMINATE = some "Indeterminate" ∧
     parseRes DECISION_INDETERMINATE_DENY = some "Indeterminate" ∧
     parseRes DECISION_INDETERMINATE_PERMIT = some "Indeterminate" ∧
     parseRes DECISION_INDETERMINATE_DENY_OR_PERMIT = some "Indeterminate") ∧
    ∀ d s, parseRes d = some s →
      s = "Permit" ∨ s = "Deny" ∨ s = "NotApplicable" ∨ s = "Indeterminate" := by
  refine ⟨by decide, ?_⟩
  intro d s h
  unfold parseRes at h
  repeat' split at h
  all_goals simp_all

/-- Witness for C7: the quantified part of the theorem, applied at the
concrete code for `Indeterminate{DP}`. -/
theorem parseRes_decision_strings_witness :
    "Indeterminate" = "Permit" ∨ "Indeterminate" = "Deny" ∨
    "Indeterminate" = "NotApplicable" ∨ "Indeterminate" = "Indeterminate" :=
  parseRes_decision_strings.2 DECISION_INDETERMINATE_DENY_OR_PERMIT
    "Indeterminate" (by decide)

/-- C2: when the designator's attribute lookup produces an empty bag, the
evaluation returns the empty bag if `mustBePresent` is false, and a
missing-attribute indeterminate whose detail names the missing
`(category, attributeId, dataType, issuer)` descriptor if it is true. -/
theorem designator_empty_bag (w : World) (d : AttributeDesignator)
    (ctx : EvalContext) (cache : Option CacheEntry)
    (h : designatorLookup w d ctx cache = .bag []) :
    (d.mustBePresent = false →
      (AttributeDesignator.evaluate w d ctx cache).1 = .bag []) ∧
    (d.mustBePresent = true →
      (AttributeDesignator.evaluate w d ctx cache).1 =
        .indet { code := [STATUS_MISSING_ATTRIBUTE]
                 message := "Couldn't find AttributeDesignator attribute"
                 detail := some [⟨d.id, d.type, d.category, d.issuer⟩] }) := by
  constructor <;> intro hmbp <;>
    simp [AttributeDesignator.evaluate, designatorResultOf, h, hmbp,
      missingAttributeStatus]

/-- Witness for C2: a concrete required designator against a context whose
lookup is empty yields the concrete missing-attribute indeterminate. -/
theorem designator_empty_bag_witness :
    (AttributeDesignator.evaluate ⟨fun _ _ _ _ _ => .bag []⟩
        ⟨"urn:dt", "urn:id", true, none, "urn:cat"⟩ ⟨0⟩ none).1 =
      .indet { code := [STATUS_MISSING_ATTRIBUTE]
               message := "Couldn't find AttributeDesignator attribute"
               detail := some [⟨"urn:id", "urn:dt", "urn:cat", none⟩] } :=
  (designator_empty_bag ⟨fun _ _ _ _ _ => .bag []⟩
    ⟨"urn:dt", "urn:id", true, none, "urn:cat"⟩ ⟨0⟩ none rfl).2 rfl

/-- C3 counterexample: the designator cache is a single module-level state,
not per-Context — the entry written while evaluating under the request
store with identity 0 is the very state the next evaluation, under the
distinct store identity 1, reads and overwrites.  A per-Context cache
discarded with its context could neither see nor replace it. -/
theorem designator_cache_shared_counterexample :
    ((AttributeDesignator.evaluate ⟨fun _ _ _ _ _ => .bag ["v"]⟩
        ⟨"t", "i", false, none, "c"⟩ ⟨0⟩ none).2 =
      some ⟨"t", "i", none, "c", .bag ["v"], 0⟩) ∧
    ((AttributeDesignator.evaluate ⟨fun _ _ _ _ _ => .bag ["v"]⟩
        ⟨"t", "i", false, none, "c"⟩ ⟨1⟩
        (some ⟨"t", "i", none, "c", .bag ["v"], 0⟩)).2 =
      some ⟨"t", "i", none, "c", .bag ["v"], 1⟩) ∧
    (0 : Nat) ≠ 1 := by
  refine ⟨rfl, ?_, by decide⟩
  simp [AttributeDesignator.evaluate, designatorCacheAfter]

/-- C3 amended: the cache is process-wide module state, but its hit test
compares the full `(type, id, issuer, category)` tuple and the identity of
the context's attribute store, so whenever the cached entry was recorded
under a different store identity the evaluation result is the one of a
fresh lookup — a result cached during one request's evaluation is never
returned for a request with a different attribute store. -/
theorem designator_cache_keyed_by_store (w : World) (d : AttributeDesignator)
    (ctx : EvalContext) (cache : Option CacheEntry)
    (h : ∀ e, cache = some e → e.attrs ≠ ctx.attributesSet) :
    (AttributeDesignator.evaluate w d ctx cache).1 =
      (AttributeDesignator.evaluate w d ctx none).1 := by
  have hl : designatorLookup w d ctx cache = designatorLookup w d ctx none := by
    cases cache with
    | none => rfl
    | some e =>
        simp only [designatorLookup]
        rw [if_neg]
        rintro ⟨-, -, -, -, h5⟩
        exact h e rfl h5
  show designatorResultOf w d ctx cache = designatorResultOf w d ctx none
  unfold designatorResultOf
  rw [hl]

/-- Witness for C3's amended statement: a cache entry recorded under store
identity 0 never feeds an evaluation under store identity 1. -/
theorem designator_cache_keyed_by_store_witness :
    (AttributeDesignator.evaluate ⟨fun _ _ _ _ _ => .bag ["w"]⟩
        ⟨"t", "i", false, none, "c"⟩ ⟨1⟩
        (some ⟨"t", "i", none, "c", .bag ["stale"], 0⟩)).1 =
      (AttributeDesignator.evaluate ⟨fun _ _ _ _ _ => .bag ["w"]⟩
        ⟨"t", "i", false, none, "c"⟩ ⟨1⟩ none).1 :=
  designator_cache_keyed_by_store ⟨fun _ _ _ _ _ => .bag ["w"]⟩
    ⟨"t", "i", false, none, "c"⟩ ⟨1⟩
    (some ⟨"t", "i", none, "c", .bag ["stale"], 0⟩)
    (by intro e he; injection he with he; subst he; decide)

/-- C8: designator evaluation is deterministic across module cache states:
against any cache state consistent with the world — the initial state is,
and every evaluation preserves consistency, so every reachable state is —
the evaluation result equals the result from the pristine cache, i.e. the
module-level cache left by earlier evaluations never changes a later
result. -/
theorem designator_deterministic (w : World) (d : AttributeDesignator)
    (ctx : EvalContext) (cache : Option CacheEntry)
    (h : CacheConsistent w cache) :
    ((AttributeDesignator.evaluate w d ctx cache).1 =
      (AttributeDesignator.evaluate w d ctx none).1) ∧
    CacheConsistent w (AttributeDesignator.evaluate w d ctx cache).2 ∧
    CacheConsistent w (none : Option CacheEntry) := by
  refine ⟨?_, ?_, by intro e he; cases he⟩
  · have hl : designatorLookup w d ctx cache = designatorLookup w d ctx none := by
      cases cache with
      | none => rfl
      | some e =>
          simp only [designatorLookup]
          split
          · next hcond =>
              obtain ⟨h1, h2, h3, h4, h5⟩ := hcond
              rw [h e rfl, h1, h2, h3, h4, h5]
          · rfl
    show designatorResultOf w d ctx cache = designatorResultOf w d ctx none
    unfold designatorResultOf
    rw [hl]
  · show CacheConsistent w (designatorCacheAfter w d ctx cache)
    intro e' he'
    cases cache with
    | none =>
        simp only [designatorCacheAfter, Option.some.injEq] at he'
        subst he'
        rfl
    | some e =>
        simp only [designatorCacheAfter] at he'
        split at he'
        · exact h e' he'
        · rw [Option.some.injEq] at he'
          subst he'
          rfl

/-- Witness for C8: a consistent concrete cache entry (a hit for the very
designator evaluated) yields the same result as the pristine cache. -/
theorem designator_deterministic_witness :
    (AttributeDesignator.evaluate ⟨fun _ _ _ _ _ => .bag ["v"]⟩
        ⟨"t", "i", false, none, "c"⟩ ⟨5⟩
        (some ⟨"t", "i", none, "c", .bag ["v"], 5⟩)).1 =
      (AttributeDesignator.evaluate ⟨fun _ _ _ _ _ => .bag ["v"]⟩
        ⟨"t", "i", false, none, "c"⟩ ⟨5⟩ none).1 :=
  (designator_deterministic ⟨fun _ _ _ _ _ => .bag ["v"]⟩
    ⟨"t", "i", false, none, "c"⟩ ⟨5⟩
    (some ⟨"t", "i", none, "c", .bag ["v"], 5⟩)
    (by intro e he; injection he with he; subst he; rfl)).1

/-- C9: the not function propagates an indeterminate argument unchanged
and negates a boolean one. -/
theorem not_propagates_and_negates (arg : EvalContext → EvaluationResult)
    (ctx : EvalContext) :
    (∀ s, arg ctx = .indet s →
      NotFunction.evaluateApply arg ctx = .indet s) ∧
    (∀ v, arg ctx = .value v →
      NotFunction.evaluateApply arg ctx = .value (!v)) := by
  constructor <;> intro x hx <;> simp [NotFunction.evaluateApply, hx]

/-- Witness for C9: a concrete boolean argument is negated and a concrete
indeterminate argument is passed through unchanged. -/
theorem not_propagates_and_negates_witness :
    NotFunction.evaluateApply (fun _ => .value true) ⟨0⟩ = .value false ∧
    NotFunction.evaluateApply
        (fun _ => .indet ⟨["urn:code"], "m", none⟩) ⟨0⟩ =
      .indet ⟨["urn:code"], "m", none⟩ := by
  constructor
  · exact (not_propagates_and_negates (fun _ => .value true) ⟨0⟩).2 true rfl
  · exact (not_propagates_and_negates
      (fun _ => .indet ⟨["urn:code"], "m", none⟩) ⟨0⟩).1
      ⟨["urn:code"], "m", none⟩ rfl

/-- C5: `DateTimeAttribute.equals` never returns a boolean — its body is a
bare `throw new Error()` behind a placeholder comment, so every comparison
of two dateTime values fails instead of deciding instant equality. -/
theorem dateTime_equals_throws (a b : DateTimeAttribute) :
    DateTimeAttribute.equals a b = .error "" :=
  rfl

/-- C6: the Attributes loader refuses any group whose `<Content>` child
carries a fragment — it fails with the source's literal
`"need an implementation"` — while a group without Content loads fine; the
fragment is never preserved for `getContent`. -/
theorem attributes_content_rejected :
    Attributes.getInstance "urn:example:category" none
        [.contentNode (some "<doc/>")] = .error "need an implementation" ∧
    Attributes.getInstance "urn:example:category" none
        [.attributeNode "a"] =
      .ok ⟨"urn:example:category", none, ["a"], none⟩ := by
  exact ⟨rfl, rfl⟩

/-- C4: a string accepted by `DateTimeAttribute.getInstance` carries a
timezone designator `Z` or `±HH:MM` on its parsed text, and a text without
one is rejected so that the enclosing expression yields `Indeterminate`
with a syntax-error status instead of a parsed value. -/
theorem dateTime_requires_timezone (m : MomentOracle) (v t : String)
    (hp : parsedText v = .ok t) :
    (∀ a, DateTimeAttribute.getInstance m v = .ok a →
        hasTimezoneDesignator t = true) ∧
    (hasTimezoneDesignator t = false →
        evalDateTimeValue m v =
          .indet ⟨[STATUS_SYNTAX_ERROR],
            "Malformed dateTime value: " ++ t, none⟩) := by
  constructor
  · intro a h
    unfold DateTimeAttribute.getInstance at h
    rw [hp] at h
    by_cases hreg : dtRegexMatch t = true
    · exact dtRegexMatch_timezone t hreg
    · simp [hreg] at h
  · intro hn
    have hreg : dtRegexMatch t = false := by
      cases hb : dtRegexMatch t
      · rfl
      · rw [dtRegexMatch_timezone t hb] at hn
        cases hn
    simp [evalDateTimeValue, DateTimeAttribute.getInstance, hp, hreg]

/-- Witness for C4: the parser accepts a concrete zoned dateTime (whose
text indeed carries a designator) and rejects the same instant written
without a timezone, surfacing the concrete syntax-error indeterminate. -/
theorem dateTime_requires_timezone_witness :
    hasTimezoneDesignator "2025-01-01T00:00:00Z" = true ∧
    evalDateTimeValue ⟨fun _ => true, fun _ => 0, fun _ => 0⟩
        "2025-01-01T00:00:00" =
      .indet ⟨[STATUS_SYNTAX_ERROR],
        "Malformed dateTime value: 2025-01-01T00:00:00", none⟩ := by
  constructor
  · exact (dateTime_requires_timezone ⟨fun _ => true, fun _ => 0, fun _ => 0⟩
      "2025-01-01T00:00:00Z" "2025-01-01T00:00:00Z" (by decide)).1
      ⟨0, 0, 0, 0⟩ (by decide)
  · exact (dateTime_requires_timezone ⟨fun _ => true, fun _ => 0, fun _ => 0⟩
      "2025-01-01T00:00:00" "2025-01-01T00:00:00" (by decide)).2 (by decide)

/-- C10 counterexample: for a pre-epoch date (negative epoch milliseconds,
here -1, i.e. one millisecond before 1970) and nanoseconds 0, `combineNanos`
returns -1000000 — outside `[0, 10^9)` — because the JS `%` keeps the
dividend's sign. -/
theorem combineNanos_counterexample :
    combineNanos (-1) 0 = -1000000 ∧ ¬(0 ≤ combineNanos (-1) 0) := by
  decide

/-- C10 amended: for every date with nonnegative epoch milliseconds (any
date not before 1970-01-01T00:00:00Z) and nonnegative nanoseconds argument,
`combineNanos` returns a value in `[0, 10^9)`, and `init` stores exactly
that value as the attribute's nanoseconds component. -/
theorem combineNanos_range (millis nanos : Int)
    (hm : 0 ≤ millis) (hn : 0 ≤ nanos) :
    (0 ≤ combineNanos millis nanos ∧
      combineNanos millis nanos < NANOS_PER_SECOND) ∧
    ∀ tz dtz, (DateTimeAttribute.init millis nanos tz dtz).nanoseconds =
      combineNanos millis nanos := by
  refine ⟨?_, fun _ _ => rfl⟩
  simp only [combineNanos]
  split
  · next hcond => exact ⟨le_of_lt hcond.2.1, hcond.2.2⟩
  · next hcond =>
      have hcarry : 0 ≤ millis.tmod MILLIS_PER_SECOND := Int.tmod_nonneg _ hm
      have htemp : 0 ≤ nanos + millis.tmod MILLIS_PER_SECOND * NANOS_PER_MILLI :=
        add_nonneg hn (mul_nonneg hcarry (by norm_num [NANOS_PER_MILLI]))
      exact ⟨Int.tmod_nonneg _ htemp,
        Int.tmod_lt_of_pos _
          (by norm_num [NANOS_PER_SECOND, NANOS_PER_MILLI, MILLIS_PER_SECOND])⟩

/-- Witness for C10's amended statement: a concrete post-epoch date with an
overflowing nanosecond argument lands in `[0, 10^9)` and is what `init`
stores. -/
theorem combineNanos_range_witness :
    (0 ≤ combineNanos 1500 2000000000 ∧
      combineNanos 1500 2000000000 < NANOS_PER_SECOND) ∧
    (DateTimeAttribute.init 1500 2000000000 0 0).nanoseconds =
      combineNanos 1500 2000000000 := by
  have h := combineNanos_range 1500 2000000000 (by decide) (by decide)
  exact ⟨h.1, h.2 0 0⟩

/-- C1 counterexample: at a concrete malformed-request parse failure the
boundary's response has decision "Indeterminate" but mentions no
syntax-error status in any of its fields (the response record has no status
code at all, only the raw error message), and at a concrete post-parse
exception `evaluates` yields no result whatsoever. -/
theorem evaluate_boundary_counterexample :
    (evaluateCallBack (fun _ => []) (fun _ => .error ⟨"pdp threw"⟩)
        (.error ⟨"Unexpected end of input"⟩) =
      .ok ⟨[], "[]", some "Indeterminate", none,
        some "Unexpected end of input"⟩) ∧
    (responseMentions
        ⟨[], "[]", some "Indeterminate", none, some "Unexpected end of input"⟩
        "syntax-error" = false) ∧
    (evaluates (fun _ => []) (fun _ => .error ⟨"pdp threw"⟩) (.ok 0) =
      none) := by
  refine ⟨rfl, by decide, rfl⟩

/-- C1 amended: an exception thrown while building the request context is
caught and yields the literal fallback response — decision "Indeterminate"
and the raw error message, with no status code — whereas an exception
thrown by the PDP evaluation after parsing propagates out of
`evaluateCallBack`, and `evaluates` swallows it, returning no result. -/
theorem evaluate_boundary_amended
    (getFullObls : List String → List FullObligation)
    (pdpEval : Nat → Except JsError ResponseCtx) (e : JsError) :
    (evaluateCallBack getFullObls pdpEval (.error e) =
      .ok { obligations := []
            attributes := "[]"
            decision := some "Indeterminate"
            reason := none
            message := some e.message }) ∧
    (∀ request, pdpEval request = .error e →
        evaluateCallBack getFullObls pdpEval (.ok request) = .error e ∧
        evaluates getFullObls pdpEval (.ok request) = none) := by
  refine ⟨rfl, ?_⟩
  intro request h
  constructor
  · simp [evaluateCallBack, h]
  · simp [evaluates, evaluateCallBack, h]

/-- Witness for C1's amended statement: the concrete fallback response on a
parse failure, and the concrete absent result when the PDP evaluation
throws. -/
theorem evaluate_boundary_amended_witness :
    (evaluateCallBack (fun _ => []) (fun _ => .error ⟨"pdp threw"⟩)
        (.error ⟨"pdp threw"⟩) =
      .ok { obligations := []
            attributes := "[]"
            decision := some "Indeterminate"
            reason := none
            message := some "pdp threw" }) ∧
    evaluateCallBack (fun _ => []) (fun _ => .error ⟨"pdp threw"⟩) (.ok 0) =
      .error ⟨"pdp threw"⟩ ∧
    evaluates (fun _ => []) (fun _ => .error ⟨"pdp threw"⟩) (.ok 0) = none := by
  have h := evaluate_boundary_amended (fun _ => [])
    (fun _ => .error ⟨"pdp threw"⟩) ⟨"pdp threw"⟩
  exact ⟨h.1, (h.2 0 rfl).1, (h.2 0 rfl).2⟩

end FLAAA
